import Mathlib

/-!
Verification of the process-supervisor logic in
`src/packages/app/src-tauri/src/lib.rs` (the Eliza desktop client's
embedded server supervisor).

The Rust code is shallowly embedded: the outcome of each external call
(TCP connect, process spawn, kill signal) is an input of the model, and
each Rust function becomes a pure Lean function from that environment and
the current supervisor state to the new state together with a record of
the observable effects (spawn attempts, kill signals issued, log lines).
-/

namespace Eliza

/-- The possible reasons a TCP connection attempt can fail.  The Rust code
matches `Err(_)` so the reason is never inspected; we enumerate the ones
the spec names to show they are treated alike. -/
inductive ConnectError where
  | refused
  | timeout
  | unreachable
deriving DecidableEq, Repr

/-- Environment: the outcomes of the external calls the supervisor makes.
`conn` is the result of `TcpStream::connect("127.0.0.1:3000")`, `spawn`
the result of `Command::new("elizaos").arg("start").spawn()` (a `Child`
is identified by a `Nat` handle), `killResult` the result of
`Child::kill` on a given handle. -/
structure Env where
  conn : Except ConnectError Unit
  spawn : Except String Nat
  killResult : Nat → Except String Unit

/-- Observable effects of one supervisor operation: how many times the
launch command was invoked, which handles received a terminate (kill)
signal, and the log lines printed. -/
structure Effects where
  spawnCalls : Nat
  kills : List Nat
  logs : List String
deriving DecidableEq, Repr

/-- Embedding of `is_server_running`: `TcpStream::connect` succeeding
yields `true`, any `Err(_)` yields `false`. -/
def is_server_running (conn : Except ConnectError Unit) : Bool :=
  match conn with
  | .ok _ => true
  | .error _ => false

/-- Embedding of `shutdown_server`: lock the slot; if a child is held,
send it a kill signal, logging success or failure; in all cases set the
slot to `None` afterwards. -/
def shutdown_server (env : Env) (s : Option Nat) : Option Nat × Effects :=
  match s with
  | some child =>
      match env.killResult child with
      | .ok _ =>
          (none, ⟨0, [child],
            ["Shutting down Eliza server...",
             "Eliza server shut down successfully"]⟩)
      | .error e =>
          (none, ⟨0, [child],
            ["Shutting down Eliza server...",
             "Failed to kill Eliza server: " ++ e]⟩)
  | none =>
      (none, ⟨0, [], ["Shutting down Eliza server..."]⟩)

/-- Embedding of the server-start block of the `setup` closure in `run`:
if `is_server_running()` is false, invoke the launch command; on spawn
success store the child handle (unconditional assignment to the slot);
on spawn failure only log.  If the probe succeeds, only log. -/
def ensureStarted (env : Env) (s : Option Nat) : Option Nat × Effects :=
  if is_server_running env.conn then
    (s, ⟨0, [], ["Eliza server is already running"]⟩)
  else
    match env.spawn with
    | .ok child =>
        (some child, ⟨1, [],
          ["Starting Eliza server...",
           "Eliza server process started"]⟩)
    | .error e =>
        (s, ⟨1, [],
          ["Starting Eliza server...",
           "Failed to start Eliza server: " ++ e]⟩)

/-- Embedding of the whole `setup` closure's result: after the
server-start block (whatever its outcome) the closure returns `Ok(())`,
so no error ever propagates to the caller. -/
def setup (env : Env) (s : Option Nat) :
    Except String (Option Nat × Effects) :=
  .ok (ensureStarted env s)

/-- Embedding of the `greet` Tauri command:
`format!("Hello, \x7b\x7d! You've been greeted from Rust!", name)`. -/
def greet (name : String) : String :=
  "Hello, " ++ name ++ "! You\x27ve been greeted from Rust!"

/-- Atomic actions of the supervisor's two code paths, for the locking
model: acquiring / releasing the `SERVER_PROCESS` mutex, an access (read
or write) to the guarded `Option<Child>` slot, or an external call that
touches neither (TCP connect, spawn, kill syscall, logging). -/
inductive Action where
  | lock
  | unlock
  | access
  | sys
deriving DecidableEq, Repr

/-- A trace is well locked from lock depth `d` when every slot access
happens at depth 1, the (non-reentrant) mutex is acquired only at depth 0
and released only at depth 1, and the trace ends with the mutex free. -/
def wellLocked : Nat → List Action → Bool
  | d, [] => d == 0
  | d, .lock :: rest => d == 0 && wellLocked 1 rest
  | d, .unlock :: rest => d == 1 && wellLocked 0 rest
  | d, .access :: rest => d == 1 && wellLocked d rest
  | d, .sys :: rest => wellLocked d rest

/-- An interleaving of the action lists of two threads (`false` = the
setup path, `true` = the shutdown path), tagging each step with the
thread that performs it. -/
inductive Interleaves :
    List Action → List Action → List (Bool × Action) → Prop where
  | nil : Interleaves [] [] []
  | left : ∀ {a xs ys zs}, Interleaves xs ys zs →
      Interleaves (a :: xs) ys ((false, a) :: zs)
  | right : ∀ {a xs ys zs}, Interleaves xs ys zs →
      Interleaves xs (a :: ys) ((true, a) :: zs)

/-- Mutex semantics on a tagged schedule: `lock` succeeds only when the
mutex is free (otherwise the thread would block, so the schedule is not
an execution), `unlock` only by the holder.  The first argument is the
current holder. -/
def lockValid : Option Bool → List (Bool × Action) → Bool
  | _, [] => true
  | none, (t, .lock) :: rest => lockValid (some t) rest
  | some _, (_, .lock) :: _ => false
  | some h, (t, .unlock) :: rest => h == t && lockValid none rest
  | none, (_, .unlock) :: _ => false
  | h, (_, .access) :: rest => lockValid h rest
  | h, (_, .sys) :: rest => lockValid h rest

/-- Mutual-exclusion safety of a tagged schedule: every access to the
guarded slot is performed by the thread currently holding the mutex (so
accesses of the two threads can never interleave inside a critical
section — no torn state). -/
def accessesUnderLock : Option Bool → List (Bool × Action) → Bool
  | _, [] => true
  | none, (t, .lock) :: rest => accessesUnderLock (some t) rest
  | some _, (_, .lock) :: _ => false
  | some h, (t, .unlock) :: rest => h == t && accessesUnderLock none rest
  | none, (_, .unlock) :: _ => false
  | h, (t, .access) :: rest => h == some t && accessesUnderLock h rest
  | h, (_, .sys) :: rest => accessesUnderLock h rest

/-- Lock depth a given thread is at when `h` is the current holder. -/
def depthOf (h : Option Bool) (t : Bool) : Nat :=
  match h with
  | some u => if u == t then 1 else 0
  | none => 0

/-- Action trace of the setup closure's server-start block, from the
code: TCP probe; if unreachable, spawn; if the spawn succeeds, lock the
`SERVER_PROCESS` mutex, write the slot, drop the guard. -/
def ensureStartedActions (probeOk spawnOk : Bool) : List Action :=
  if probeOk then [.sys]
  else if spawnOk then [.sys, .sys, .lock, .access, .unlock]
  else [.sys, .sys]

/-- Action trace of `shutdown_server`, from the code: lock the
`SERVER_PROCESS` mutex, read the slot, kill the child if one is held,
write `None` into the slot, drop the guard. -/
def shutdownActions (held : Bool) : List Action :=
  if held then [.lock, .access, .sys, .access, .unlock]
  else [.lock, .access, .access, .unlock]

/-- A sample schedule: the whole setup path (probe fails, spawn
succeeds) runs, then the whole shutdown path on a held handle. -/
def sampleSchedule : List (Bool × Action) :=
  [(false, .sys), (false, .sys), (false, .lock), (false, .access),
   (false, .unlock), (true, .lock), (true, .access), (true, .sys),
   (true, .access), (true, .unlock)]

end Eliza

namespace Eliza

/-- C4: `is_server_running` returns `true` exactly when the connection
attempt succeeds, and every failure reason (refused, timeout,
unreachable) yields the same `false` result. -/
theorem is_server_running_iff :
    (∀ conn : Except ConnectError Unit,
      is_server_running conn = true ↔ conn = .ok ()) ∧
    (∀ e e' : ConnectError,
      is_server_running (.error e) = is_server_running (.error e') ∧
      is_server_running (.error e) = false) := by
  constructor
  · intro conn
    cases conn with
    | ok u => cases u; simp [is_server_running]
    | error e => simp [is_server_running]
  · intro e e'
    exact ⟨rfl, rfl⟩

/-- C2: whenever a process handle is held, `shutdown_server` clears the
stored handle after the terminate attempt, both when the kill signal
succeeds and when it fails; moreover the slot is empty after every call. -/
theorem shutdown_clears_handle (env : Env) (s : Option Nat) :
    (shutdown_server env s).1 = none := by
  cases s with
  | none => rfl
  | some child =>
      cases h : env.killResult child <;> simp [shutdown_server, h]

/-- C3: `shutdown_server` with no handle held sends no kill signal and
returns normally, and two sequential calls send at most one kill signal
in total and end in the same empty state as a single call. -/
theorem shutdown_idempotent (env env' : Env) (s : Option Nat) :
    (shutdown_server env none).2.kills = [] ∧
    ((shutdown_server env' (shutdown_server env s).1).2.kills = [] ∧
     (shutdown_server env s).2.kills.length +
       (shutdown_server env' (shutdown_server env s).1).2.kills.length ≤ 1 ∧
     (shutdown_server env' (shutdown_server env s).1).1 =
       (shutdown_server env s).1) := by
  have h1 : (shutdown_server env s).1 = none := shutdown_clears_handle env s
  refine ⟨rfl, ?_, ?_, ?_⟩
  · rw [h1]; rfl
  · rw [h1]
    cases s with
    | none => simp [shutdown_server]
    | some child =>
        cases h : env.killResult child <;> simp [shutdown_server, h]
  · rw [h1]; rfl

/-- C5: when the probe reports the server reachable, the launch command
is not invoked (no spawn attempt at all). -/
theorem no_spawn_when_reachable (env : Env) (s : Option Nat)
    (h : is_server_running env.conn = true) :
    (ensureStarted env s).2.spawnCalls = 0 := by
  simp [ensureStarted, h]

/-- Witness for C5 at a concrete reachable environment. -/
theorem no_spawn_when_reachable_witness :
    (ensureStarted ⟨.ok (), .ok 7, fun _ => .ok ()⟩ none).2.spawnCalls = 0 :=
  no_spawn_when_reachable ⟨.ok (), .ok 7, fun _ => .ok ()⟩ none rfl

/-- C7: when the spawn fails, the `setup` closure still returns `Ok`,
the stored state is left unchanged (in particular an empty slot stays
empty), the failure is logged, and no kill signal is sent. -/
theorem spawn_failure_logged_only (env : Env) (s : Option Nat) (e : String)
    (hp : is_server_running env.conn = false) (hs : env.spawn = .error e) :
    setup env s = .ok (s,
      ⟨1, [], ["Starting Eliza server...",
               "Failed to start Eliza server: " ++ e]⟩) := by
  simp [setup, ensureStarted, hp, hs]

/-- Witness for C7 at a concrete failing-spawn environment. -/
theorem spawn_failure_logged_only_witness :
    setup ⟨.error .refused, .error "no binary", fun _ => .ok ()⟩ none =
      .ok (none,
        ⟨1, [], ["Starting Eliza server...",
                 "Failed to start Eliza server: " ++ "no binary"]⟩) :=
  spawn_failure_logged_only ⟨.error .refused, .error "no binary",
    fun _ => .ok ()⟩ none "no binary" rfl rfl

/-- C9: when the spawn succeeds (probe having reported unreachable), the
new child handle is stored by unconditional assignment: whatever the slot
held before, afterwards it holds exactly the new handle, and no kill
signal is sent to any previously stored handle. -/
theorem spawn_overwrites_slot (env : Env) (s : Option Nat) (c : Nat)
    (hp : is_server_running env.conn = false) (hs : env.spawn = .ok c) :
    (ensureStarted env s).1 = some c ∧ (ensureStarted env s).2.kills = [] := by
  simp [ensureStarted, hp, hs]

/-- Witness for C9: a slot already holding handle 5 is overwritten with
the new handle 9 and no kill signal is sent to 5. -/
theorem spawn_overwrites_slot_witness :
    (ensureStarted ⟨.error .refused, .ok 9, fun _ => .ok ()⟩ (some 5)).1 =
        some 9 ∧
    (ensureStarted ⟨.error .refused, .ok 9, fun _ => .ok ()⟩
        (some 5)).2.kills = [] :=
  spawn_overwrites_slot ⟨.error .refused, .ok 9, fun _ => .ok ()⟩
    (some 5) 9 rfl rfl

/-- C10: `greet` returns exactly the greeting string built from its
argument, for every input string. -/
theorem greet_spec (name : String) :
    greet name = "Hello, " ++ name ++ "! You\x27ve been greeted from Rust!" :=
  rfl

/-- C1 counterexample: with a handle (5) already stored but the probe
reporting unreachable (connection refused) and a successful spawn, the
setup block does invoke the launch command (one spawn attempt) and
replaces the stored handle — the stored handle alone does not make the
call a no-op. -/
theorem stored_handle_does_not_block_spawn :
    (ensureStarted ⟨.error .refused, .ok 9, fun _ => .ok ()⟩
        (some 5)).2.spawnCalls = 1 ∧
    (ensureStarted ⟨.error .refused, .ok 9, fun _ => .ok ()⟩
        (some 5)).1 ≠ some 5 := by
  constructor
  · rfl
  · decide

/-- C1 amended: the setup block skips the launch command exactly when
`is_server_running` returns `true`; the stored handle is never consulted,
and when the probe succeeds the call leaves the stored state unchanged. -/
theorem ensure_started_noop_iff_probe (env : Env) (s : Option Nat) :
    ((ensureStarted env s).2.spawnCalls = 0 ↔
      is_server_running env.conn = true) ∧
    (is_server_running env.conn = true → (ensureStarted env s).1 = s) := by
  constructor
  · constructor
    · intro h
      by_contra hc
      have hc' : is_server_running env.conn = false := by
        cases hh : is_server_running env.conn
        · rfl
        · exact absurd hh hc
      cases hs : env.spawn <;> simp [ensureStarted, hc', hs] at h
    · intro h
      simp [ensureStarted, h]
  · intro h
    simp [ensureStarted, h]

/-- Witness for the C1 amended theorem at a concrete reachable
environment. -/
theorem ensure_started_noop_iff_probe_witness :
    (((ensureStarted ⟨.ok (), .ok 9, fun _ => .ok ()⟩
          (some 5)).2.spawnCalls = 0 ↔
        is_server_running (Except.ok ()) = true) ∧
      (is_server_running (Except.ok ()) = true →
        (ensureStarted ⟨.ok (), .ok 9, fun _ => .ok ()⟩
          (some 5)).1 = some 5)) :=
  ensure_started_noop_iff_probe ⟨.ok (), .ok 9, fun _ => .ok ()⟩ (some 5)

/-- C6: end-to-end scenario from an empty slot with the endpoint
unreachable: the setup block spawns process `p` and stores its handle;
a following `shutdown_server` issues exactly one kill signal, to `p`,
and returns the slot to empty; total kill signals across the scenario
equal one. -/
theorem end_to_end_scenario (env env' : Env) (p : Nat)
    (hp : is_server_running env.conn = false) (hs : env.spawn = .ok p) :
    (ensureStarted env none).1 = some p ∧
    (ensureStarted env none).2.spawnCalls = 1 ∧
    (shutdown_server env' (ensureStarted env none).1).1 = none ∧
    (shutdown_server env' (ensureStarted env none).1).2.kills = [p] ∧
    (ensureStarted env none).2.kills.length +
      (shutdown_server env' (ensureStarted env none).1).2.kills.length
      = 1 := by
  have h1 : (ensureStarted env none).1 = some p := by
    simp [ensureStarted, hp, hs]
  have h2 : (ensureStarted env none).2.kills = [] := by
    simp [ensureStarted, hp, hs]
  refine ⟨h1, ?_, ?_, ?_, ?_⟩
  · simp [ensureStarted, hp, hs]
  · rw [h1]; exact shutdown_clears_handle env' (some p)
  · rw [h1]
    cases h : env'.killResult p <;> simp [shutdown_server, h]
  · rw [h1, h2]
    cases h : env'.killResult p <;> simp [shutdown_server, h]

/-- Witness for C6 at a concrete environment (unreachable endpoint,
spawn yields handle 4, kill succeeds). -/
theorem end_to_end_scenario_witness :
    (ensureStarted ⟨.error .unreachable, .ok 4, fun _ => .ok ()⟩ none).1 =
        some 4 ∧
    (ensureStarted ⟨.error .unreachable, .ok 4, fun _ => .ok ()⟩
        none).2.spawnCalls = 1 ∧
    (shutdown_server ⟨.error .unreachable, .ok 4, fun _ => .ok ()⟩
        (ensureStarted ⟨.error .unreachable, .ok 4, fun _ => .ok ()⟩
          none).1).1 = none ∧
    (shutdown_server ⟨.error .unreachable, .ok 4, fun _ => .ok ()⟩
        (ensureStarted ⟨.error .unreachable, .ok 4, fun _ => .ok ()⟩
          none).1).2.kills = [4] ∧
    (ensureStarted ⟨.error .unreachable, .ok 4, fun _ => .ok ()⟩
        none).2.kills.length +
      (shutdown_server ⟨.error .unreachable, .ok 4, fun _ => .ok ()⟩
        (ensureStarted ⟨.error .unreachable, .ok 4, fun _ => .ok ()⟩
          none).1).2.kills.length = 1 :=
  end_to_end_scenario ⟨.error .unreachable, .ok 4, fun _ => .ok ()⟩
    ⟨.error .unreachable, .ok 4, fun _ => .ok ()⟩ 4 rfl rfl

/-- Two well-locked threads interleaved under mutex semantics only ever
access the guarded slot while holding the mutex. -/
theorem accesses_guarded_of_wellLocked {xs ys : List Action}
    {zs : List (Bool × Action)} (hI : Interleaves xs ys zs) :
    ∀ h : Option Bool,
      wellLocked (depthOf h false) xs = true →
      wellLocked (depthOf h true) ys = true →
      lockValid h zs = true →
      accessesUnderLock h zs = true := by
  induction hI with
  | nil => intro h _ _ _; cases h <;> rfl
  | @left a xs ys zs _ ih =>
      intro h hx hy hv
      cases a with
      | lock =>
          simp only [wellLocked, Bool.and_eq_true, beq_iff_eq] at hx
          cases h with
          | none =>
              simp only [lockValid] at hv
              simp only [accessesUnderLock]
              exact ih (some false) (by simpa [depthOf] using hx.2)
                (by simpa [depthOf] using hy) hv
          | some t =>
              cases t with
              | false => simp [depthOf] at hx
              | true => simp [lockValid] at hv
      | unlock =>
          simp only [wellLocked, Bool.and_eq_true, beq_iff_eq] at hx
          cases h with
          | none => simp [depthOf] at hx
          | some t =>
              cases t with
              | false =>
                  simp only [lockValid, Bool.and_eq_true, beq_iff_eq] at hv
                  simp only [accessesUnderLock, Bool.and_eq_true, beq_iff_eq]
                  exact ⟨trivial, ih none (by simpa [depthOf] using hx.2)
                    (by simpa [depthOf] using hy) hv.2⟩
              | true => simp [depthOf] at hx
      | access =>
          simp only [wellLocked, Bool.and_eq_true, beq_iff_eq] at hx
          cases h with
          | none => simp [depthOf] at hx
          | some t =>
              cases t with
              | false =>
                  simp only [lockValid] at hv
                  simp only [accessesUnderLock, Bool.and_eq_true]
                  refine ⟨by decide, ih (some false) ?_ hy hv⟩
                  simpa [depthOf] using hx.2
              | true => simp [depthOf] at hx
      | sys =>
          simp only [wellLocked] at hx
          simp only [lockValid] at hv
          simp only [accessesUnderLock]
          exact ih h hx hy hv
  | @right a xs ys zs _ ih =>
      intro h hx hy hv
      cases a with
      | lock =>
          simp only [wellLocked, Bool.and_eq_true, beq_iff_eq] at hy
          cases h with
          | none =>
              simp only [lockValid] at hv
              simp only [accessesUnderLock]
              exact ih (some true) (by simpa [depthOf] using hx)
                (by simpa [depthOf] using hy.2) hv
          | some t =>
              cases t with
              | false => simp [lockValid] at hv
              | true => simp [depthOf] at hy
      | unlock =>
          simp only [wellLocked, Bool.and_eq_true, beq_iff_eq] at hy
          cases h with
          | none => simp [depthOf] at hy
          | some t =>
              cases t with
              | false => simp [depthOf] at hy
              | true =>
                  simp only [lockValid, Bool.and_eq_true, beq_iff_eq] at hv
                  simp only [accessesUnderLock, Bool.and_eq_true, beq_iff_eq]
                  exact ⟨trivial, ih none (by simpa [depthOf] using hx)
                    (by simpa [depthOf] using hy.2) hv.2⟩
      | access =>
          simp only [wellLocked, Bool.and_eq_true, beq_iff_eq] at hy
          cases h with
          | none => simp [depthOf] at hy
          | some t =>
              cases t with
              | false => simp [depthOf] at hy
              | true =>
                  simp only [lockValid] at hv
                  simp only [accessesUnderLock, Bool.and_eq_true]
                  refine ⟨by decide, ih (some true) hx ?_ hv⟩
                  simpa [depthOf] using hy.2
      | sys =>
          simp only [wellLocked] at hy
          simp only [lockValid] at hv
          simp only [accessesUnderLock]
          exact ih h hx hy hv

/-- C8: both code paths follow the `SERVER_PROCESS` locking discipline
(every access to the `Option<Child>` slot happens with the mutex held,
at depth exactly 1), and consequently in every execution schedule that
interleaves a setup call with a shutdown call, each slot access is
performed by the thread holding the mutex — no torn state of the
optional handle can be observed or produced. -/
theorem supervisor_lock_discipline (p q held : Bool)
    (zs : List (Bool × Action))
    (hI : Interleaves (ensureStartedActions p q) (shutdownActions held) zs)
    (hv : lockValid none zs = true) :
    wellLocked 0 (ensureStartedActions p q) = true ∧
    wellLocked 0 (shutdownActions held) = true ∧
    accessesUnderLock none zs = true := by
  refine ⟨?_, ?_, ?_⟩
  · cases p <;> cases q <;> decide
  · cases held <;> decide
  · apply accesses_guarded_of_wellLocked hI none
    · cases p <;> cases q <;> decide
    · cases held <;> decide
    · exact hv

/-- Witness for C8 on the concrete sequential schedule `sampleSchedule`
(setup with probe unreachable and spawn success, then shutdown of the
held handle). -/
theorem supervisor_lock_discipline_witness :
    wellLocked 0 (ensureStartedActions false true) = true ∧
    wellLocked 0 (shutdownActions true) = true ∧
    accessesUnderLock none sampleSchedule = true :=
  supervisor_lock_discipline false true true sampleSchedule
    (by repeat constructor) (by decide)

end Eliza
